import Mathlib

/-
Verification development for the poptrackerlib location model
(`src/poptrackerlib/locations.py` together with the generic JSON encoder in
`src/poptrackerlib/common.py`).

The Python data model (Map / MapLocation / Area / Location / Section), its
custom JSON projection (`__json__` methods, driven by Python truthiness),
and the importer (`import_locations_from_file` / `_handle_location_data`)
are shallowly embedded below.  Python numbers occurring as coordinates and
scale factors are modelled as exact rationals (`ℚ`); Python's `int(...)`
cast is truncation toward zero.  JSON values are modelled by the inductive
type `Json`; Python dicts built by the serializer are association lists in
insertion order.  Dynamically typed slots that the library stores and
re-emits verbatim (access/visibility rules, `location_id`) are modelled as
raw `Json` values; slots the library's own schema types as strings,
booleans or integers are modelled at those types, so ill-typed inputs
(which §7 of the spec leaves undefined) import as `none`/defaults.
-/

namespace Pop

/-! ### Exact rational arithmetic for the coordinate transform

`ratMul` is the exact product of two rationals, computed on numerators and
denominators so that it evaluates by kernel reduction; `ratMul_eq_mul`
below proves it equal to `(· * ·)` on `ℚ`.  `pyInt` is Python's `int()`
cast on an exact rational: truncation toward zero. -/

def ratMul (a b : ℚ) : ℚ := Rat.divInt (a.num * b.num) ((a.den : Int) * (b.den : Int))

def pyInt (q : ℚ) : Int := if 0 ≤ q then Rat.floor q else -Rat.floor (-q)

theorem ratFloor_eq_floor (q : ℚ) : Rat.floor q = ⌊q⌋ := by
  rw [Rat.floor_def', ← Rat.floor_def]

theorem ratMul_eq_mul (a b : ℚ) : ratMul a b = a * b := by
  rw [ratMul, Rat.divInt_eq_div]
  push_cast
  rw [← div_mul_div_comm, Rat.num_div_den, Rat.num_div_den]

theorem pyInt_of_nonneg (q : ℚ) (h : 0 ≤ q) : pyInt q = ⌊q⌋ := by
  rw [pyInt, if_pos h, ratFloor_eq_floor]

theorem pyInt_intCast (n : Int) : pyInt ((n : Int) : ℚ) = n := by
  rw [pyInt]
  split
  · rw [ratFloor_eq_floor, Int.floor_intCast]
  · have h2 : (-((n : Int) : ℚ)) = (((-n : Int)) : ℚ) := by push_cast; ring
    rw [h2, ratFloor_eq_floor, Int.floor_intCast]
    ring

/-! ### JSON values

A mutual inductive keeps every recursion over JSON structural, so all the
functions below evaluate by kernel reduction.  Python dicts preserve
insertion order, hence objects are ordered association lists. -/

mutual
inductive Json where
  | null
  | jbool (b : Bool)
  | jint (n : Int)
  | jstr (s : String)
  | jarr (elems : JsonList)
  | jobj (fields : JsonFields)
inductive JsonList where
  | nil
  | cons (hd : Json) (tl : JsonList)
inductive JsonFields where
  | nil
  | cons (key : String) (val : Json) (tl : JsonFields)
end

deriving instance DecidableEq for Json
deriving instance DecidableEq for JsonList
deriving instance DecidableEq for JsonFields

/-- Python truthiness of a JSON value: `None`, `False`, `0`, `""`, `[]`
and `{}` are falsy, everything else is truthy. -/
def jsonTruthy : Json → Bool
  | .null => false
  | .jbool b => b
  | .jint n => n != 0
  | .jstr s => s != ""
  | .jarr .nil => false
  | .jarr (.cons _ _) => true
  | .jobj .nil => false
  | .jobj (.cons _ _ _) => true

/-- Python truthiness of an optional string slot. -/
def optStrTruthy : Option String → Bool
  | some s => s != ""
  | none => false

/-- Python truthiness of an optional integer slot. -/
def optIntTruthy : Option Int → Bool
  | some n => n != 0
  | none => false

/-- Dictionary lookup (`data[key]` / `key in data`), first match wins. -/
def getField : JsonFields → String → Option Json
  | .nil, _ => none
  | .cons k v rest, key => if k = key then some v else getField rest key

/-- Python's `dict.get(key)`: absent keys give `None` (modelled `.null`). -/
def getD (fields : JsonFields) (key : String) : Json :=
  (getField fields key).getD Json.null

def JsonFields.append : JsonFields → JsonFields → JsonFields
  | .nil, g => g
  | .cons k v t, g => .cons k v (JsonFields.append t g)

instance : Append JsonFields := ⟨JsonFields.append⟩

def JsonList.length : JsonList → Nat
  | .nil => 0
  | .cons _ t => 1 + JsonList.length t

/-! Conditional dictionary entries, one per Python `if value: obj[k] = value`
pattern, specialised to the type the schema gives the slot. -/

def optStrEntry (k : String) (v : Option String) : JsonFields :=
  match v with
  | some s => if s = "" then .nil else .cons k (.jstr s) .nil
  | none => .nil

def optIntEntry (k : String) (v : Option Int) : JsonFields :=
  match v with
  | some n => if n = 0 then .nil else .cons k (.jint n) .nil
  | none => .nil

def truthyEntry (k : String) (v : Json) : JsonFields :=
  if jsonTruthy v then .cons k v .nil else .nil

/-- Python truthiness of a list slot: non-empty. -/
def listTruthy {α : Type} (L : List α) : Bool := !L.isEmpty

/-! ### The data model (`locations.py` classes) -/

/-- `class Map`: name, scale factor and offset for map locations. -/
structure Map where
  name : String
  scale : ℚ
  offset : Int

/-- `class MapLocation`: a single (x, y) pin bound to a `Map`. -/
structure MapLocation where
  map : Map
  x : ℚ
  y : ℚ
  size : Option Int
  border_thickness : Option Int
  restrict_visibility_rules : Json
  force_invisibility_rules : Json

/-- `Map.location(x, y)`: a pin with all optional slots at their defaults. -/
def Map.location (m : Map) (x y : ℚ) : MapLocation :=
  ⟨m, x, y, none, none, Json.null, Json.null⟩

/-- `MapLocation.__json__`: map name, transformed coordinates
(`int(self.x * self.map.scale) + self.map.offset`), then the truthy
optional slots in source order. -/
def MapLocation.fields (ml : MapLocation) : JsonFields :=
  .cons "map" (.jstr ml.map.name)
    (.cons "x" (.jint (pyInt (ratMul ml.x ml.map.scale) + ml.map.offset))
      (.cons "y" (.jint (pyInt (ratMul ml.y ml.map.scale) + ml.map.offset))
        (optIntEntry "size" ml.size ++
         optIntEntry "border_thickness" ml.border_thickness ++
         truthyEntry "restrict_visibility_rules" ml.restrict_visibility_rules ++
         truthyEntry "force_invisibility_rules" ml.force_invisibility_rules)))

def MapLocation.json (ml : MapLocation) : Json := .jobj ml.fields

/-- `class Section`: a checkable sub-unit of a Location.  `location_id`
and the rule slots are stored verbatim (raw JSON); `item_count` is an
integer. -/
structure Section where
  name : String
  clear_as_group : Bool
  chest_unopened_img : Option String
  chest_opened_img : Option String
  hosted_item : Option String
  access_rules : Json
  visibility_rules : Json
  location_id : Json
  item_count : Int

/-- `Section.__init__`, arguments in source order.  `access_rules or []`
replaces a falsy argument by the empty list; a missing `item_count`
defaults to `len(location_id)` for list/tuple `location_id`, else `1`. -/
def Section.make (name : String) (clear_as_group : Bool)
    (chest_unopened_img chest_opened_img : Option String)
    (item_count : Option Int) (hosted_item : Option String)
    (access_rules visibility_rules location_id : Json) : Section :=
  { name := name
    clear_as_group := clear_as_group
    chest_unopened_img := chest_unopened_img
    chest_opened_img := chest_opened_img
    hosted_item := hosted_item
    access_rules := if jsonTruthy access_rules then access_rules else .jarr .nil
    visibility_rules := visibility_rules
    location_id := location_id
    item_count :=
      match item_count with
      | some n => n
      | none =>
        match location_id with
        | .jarr l => (JsonList.length l : Int)
        | _ => 1 }

/-- `Section.__json__`: `item_count` is emitted unless it equals 1 and
`hosted_item` is truthy; the remaining slots are emit-if-truthy, in
source order.  `location_id` is never emitted. -/
def Section.fields (s : Section) : JsonFields :=
  .cons "name" (.jstr s.name)
    ((if s.item_count != 1 || !optStrTruthy s.hosted_item then
        JsonFields.cons "item_count" (.jint s.item_count) .nil
      else .nil) ++
     (if s.clear_as_group then JsonFields.cons "clear_as_group" (.jbool s.clear_as_group) .nil
      else .nil) ++
     optStrEntry "chest_unopened_img" s.chest_unopened_img ++
     optStrEntry "chest_opened_img" s.chest_opened_img ++
     truthyEntry "access_rules" s.access_rules ++
     truthyEntry "visibility_rules" s.visibility_rules ++
     optStrEntry "hosted_item" s.hosted_item)

def Section.json (s : Section) : Json := .jobj s.fields

/-- `class Location`: a named checkable place owning sections and pins. -/
structure Location where
  name : String
  access_rules : Json
  chest_unopened_img : Option String
  chest_opened_img : Option String
  map_locations : List MapLocation
  sections : List Section

/-- `Location(name)` as the importer constructs it: every other slot at
its default (`access_rules or []` gives the empty list). -/
def Location.ofName (name : String) : Location :=
  ⟨name, .jarr .nil, none, none, [], []⟩

def sectionsJsons : List Section → JsonList
  | [] => .nil
  | s :: t => .cons s.json (sectionsJsons t)

def mapLocationsJsons : List MapLocation → JsonList
  | [] => .nil
  | m :: t => .cons m.json (mapLocationsJsons t)

/-- `Location.__json__`: name, then emit-if-truthy slots in source order;
the `sections` / `map_locations` lists are omitted entirely when empty. -/
def Location.fields (l : Location) : JsonFields :=
  .cons "name" (.jstr l.name)
    (truthyEntry "access_rules" l.access_rules ++
     optStrEntry "chest_unopened_img" l.chest_unopened_img ++
     optStrEntry "chest_opened_img" l.chest_opened_img ++
     (if listTruthy l.sections then
        JsonFields.cons "sections" (.jarr (sectionsJsons l.sections)) .nil
      else .nil) ++
     (if listTruthy l.map_locations then
        JsonFields.cons "map_locations" (.jarr (mapLocationsJsons l.map_locations)) .nil
      else .nil))

def Location.json (l : Location) : Json := .jobj l.fields

/-- The scalar slots of `class Area` (children live in `Node`). -/
structure AreaData where
  name : String
  short_name : Option String
  access_rules : Json
  visibility_rules : Json
  chest_unopened_img : Option String
  chest_opened_img : Option String
  overlay_background : Option String
  color : Option String
  parent : Option String

/-- `Area(name)` as the importer constructs it: every other slot at its
default. -/
def AreaData.ofName (name : String) : AreaData :=
  ⟨name, none, .jarr .nil, .null, none, none, none, none, none⟩

/- A node of the forest: an `Area` (scalar slots plus children) or a
`Location`.  `NodeList` is the children list, kept mutual so recursion
stays structural. -/
mutual
inductive Node where
  | area (d : AreaData) (children : NodeList)
  | location (l : Location)
inductive NodeList where
  | nil
  | cons (hd : Node) (tl : NodeList)
end

/-- `Area.__json__` minus the children entry, which the caller appends:
name, then emit-if-truthy slots in source order. -/
def areaFieldsAux (d : AreaData) (childrenJson : JsonList) : JsonFields :=
  .cons "name" (.jstr d.name)
    (optStrEntry "short_name" d.short_name ++
     truthyEntry "access_rules" d.access_rules ++
     truthyEntry "visibility_rules" d.visibility_rules ++
     optStrEntry "chest_unopened_img" d.chest_unopened_img ++
     optStrEntry "chest_opened_img" d.chest_opened_img ++
     optStrEntry "overlay_background" d.overlay_background ++
     optStrEntry "color" d.color ++
     optStrEntry "parent" d.parent ++
     JsonFields.cons "children" (.jarr childrenJson) .nil)

mutual
def Node.json : Node → Json
  | .area d cs => .jobj (areaFieldsAux d (NodeList.jsons cs))
  | .location l => l.json
def NodeList.jsons : NodeList → JsonList
  | .nil => .nil
  | .cons n t => .cons n.json (NodeList.jsons t)
end

/-- Serializing a forest of roots, as `common.dumps` does on a list. -/
def forestJson (f : NodeList) : Json := .jarr (NodeList.jsons f)

/-! ### Rendering to text (`json.dumps` with the default separators)

Byte-for-byte claims about serialized output are stated on the rendered
character list.  Python's `json.dumps` defaults: items joined by `", "`,
keys and values by `": "`, strings escaped with `ensure_ascii` (every
character outside `0x20`–`0x7e` escaped). -/

def hexDigitChar (n : Nat) : Char :=
  if n < 10 then Char.ofNat (48 + n) else Char.ofNat (87 + n)

def escapeChar (c : Char) : List Char :=
  if c = '"' then ['\\', '"']
  else if c = '\\' then ['\\', '\\']
  else if c = '\n' then ['\\', 'n']
  else if c = '\t' then ['\\', 't']
  else if c = '\r' then ['\\', 'r']
  else if c.toNat = 8 then ['\\', 'b']
  else if c.toNat = 12 then ['\\', 'f']
  else if c.toNat < 32 || 126 < c.toNat then
    ['\\', 'u', hexDigitChar (c.toNat / 4096 % 16), hexDigitChar (c.toNat / 256 % 16),
     hexDigitChar (c.toNat / 16 % 16), hexDigitChar (c.toNat % 16)]
  else [c]

def renderJsonString (s : String) : List Char :=
  '"' :: (s.toList.map escapeChar).flatten ++ ['"']

/-- Decimal digits of a natural number, fuel-based so it evaluates by
kernel reduction. -/
def natCharsAux : Nat → Nat → List Char
  | 0, _ => []
  | fuel + 1, n =>
    if n < 10 then [Char.ofNat (48 + n)]
    else natCharsAux fuel (n / 10) ++ [Char.ofNat (48 + n % 10)]

def natChars (n : Nat) : List Char := natCharsAux (n + 1) n

def intChars : Int → List Char
  | .ofNat n => natChars n
  | .negSucc n => '-' :: natChars (n + 1)

def braceOpen : Char := Char.ofNat 123

def braceClose : Char := Char.ofNat 125

mutual
def Json.render : Json → List Char
  | .null => "null".toList
  | .jbool true => "true".toList
  | .jbool false => "false".toList
  | .jint n => intChars n
  | .jstr s => renderJsonString s
  | .jarr l => '[' :: JsonList.render l ++ [']']
  | .jobj f => braceOpen :: JsonFields.render f ++ [braceClose]
def JsonList.render : JsonList → List Char
  | .nil => []
  | .cons h .nil => Json.render h
  | .cons h (.cons h2 t) => Json.render h ++ ',' :: ' ' :: JsonList.render (.cons h2 t)
def JsonFields.render : JsonFields → List Char
  | .nil => []
  | .cons k v .nil => renderJsonString k ++ ':' :: ' ' :: Json.render v
  | .cons k v (.cons k2 v2 t) =>
    renderJsonString k ++ ':' :: ' ' :: Json.render v ++ ',' :: ' ' ::
      JsonFields.render (.cons k2 v2 t)
end

/-- `common.dumps`: serialize a JSON value to text. -/
def dumps (j : Json) : List Char := Json.render j

/-! ### The importer (`import_locations_from_file` / `_handle_location_data`)

Fallible Python code (KeyError on a missing `name`, TypeError on iterating
a non-list) is modelled by `Option`: any raised exception is `none`, and
`Option` sequencing propagates it, so an import returns either the whole
forest or nothing. -/

/-- Typed view of a JSON slot the schema declares a string: `None` or an
ill-typed value give `none`. -/
def asOptStr : Json → Option String
  | .jstr s => some s
  | _ => none

/-- Typed view of a JSON slot the schema declares an integer. -/
def asOptInt : Json → Option Int
  | .jint n => some n
  | _ => none

/-- Typed view of a JSON slot the schema declares a boolean
(`s.get('clear_as_group', False)`). -/
def asBool : Json → Bool
  | .jbool b => b
  | _ => false

/-- One entry of a `sections` array: requires `name` (KeyError otherwise),
takes every other slot through `dict.get`, and calls `Section.__init__`
with the source's keyword arguments. -/
def importSection (j : Json) : Option Pop.Section :=
  match j with
  | .jobj f =>
    match getField f "name" with
    | some (.jstr nm) =>
      some (Section.make nm (asBool (getD f "clear_as_group"))
        (asOptStr (getD f "chest_unopened_img")) (asOptStr (getD f "chest_opened_img"))
        (asOptInt (getD f "item_count")) (asOptStr (getD f "hosted_item"))
        (getD f "access_rules") (getD f "visibility_rules") (getD f "location_id"))
    | _ => none
  | _ => none

def importSections : JsonList → Option (List Pop.Section)
  | .nil => some []
  | .cons s t =>
    match importSection s, importSections t with
    | some a, some b => some (a :: b)
    | _, _ => none

/-- One entry of a `map_locations` array: requires `map`, `x` and `y`
(KeyError otherwise), and binds the pin to a freshly constructed
`Map(m['map'])` with default scale 1 and offset 0. -/
def importMapLocation (j : Json) : Option MapLocation :=
  match j with
  | .jobj f =>
    match getField f "map", getField f "x", getField f "y" with
    | some (.jstr mname), some (.jint x), some (.jint y) =>
      some ⟨⟨mname, 1, 0⟩, (x : ℚ), (y : ℚ),
        asOptInt (getD f "size"), asOptInt (getD f "border_thickness"),
        getD f "restrict_visibility_rules", getD f "force_invisibility_rules"⟩
    | _, _, _ => none
  | _ => none

def importMapLocations : JsonList → Option (List MapLocation)
  | .nil => some []
  | .cons m t =>
    match importMapLocation m, importMapLocations t with
    | some a, some b => some (a :: b)
    | _, _ => none

/-- Overwriting a built node's `access_rules` from the descriptor. -/
def Node.setAccessRules : Node → Json → Node
  | .area d cs, v => .area { d with access_rules := v } cs
  | .location l, v => .location { l with access_rules := v }

/-- `if data.get('access_rules'): location.access_rules = data['access_rules']`,
applied uniformly after building an Area or a Location. -/
def applyAccessRules (fields : JsonFields) (n : Node) : Node :=
  if jsonTruthy (getD fields "access_rules") then n.setAccessRules (getD fields "access_rules")
  else n

/-- `if data.get('sections'): for s in data['sections']: ...` — build the
sections of the Location branch (iterating a truthy non-list raises,
hence `none`; a falsy value is skipped, leaving the empty default). -/
def importSectionsField (fields : JsonFields) : Option (List Pop.Section) :=
  if jsonTruthy (getD fields "sections") then
    match getD fields "sections" with
    | .jarr l => importSections l
    | _ => none
  else some []

/-- The `map_locations` analogue of `importSectionsField`. -/
def importMapLocationsField (fields : JsonFields) : Option (List MapLocation) :=
  if jsonTruthy (getD fields "map_locations") then
    match getD fields "map_locations" with
    | .jarr l => importMapLocations l
    | _ => none
  else some []

/-- The Location branch of `_handle_location_data`: build `Location(name)`,
then append the imported sections and map locations. -/
def handleLocBranch (fields : JsonFields) (nm : String) : Option Node :=
  match importSectionsField fields, importMapLocationsField fields with
  | some secs, some mls =>
    some (applyAccessRules fields
      (.location { Location.ofName nm with sections := secs, map_locations := mls }))
  | _, _ => none

theorem getField_sizeOf_lt : (f : JsonFields) → (k : String) → (v : Json) →
    getField f k = some v → sizeOf v < sizeOf f
  | .nil, _, _, h => by simp [getField] at h
  | .cons k2 v2 rest, k, v, h => by
    simp only [getField] at h
    split at h
    · cases h; simp; omega
    · have := getField_sizeOf_lt rest k v h; simp; omega

/- `_handle_location_data`: the presence of a `children` key selects the
Area branch (recursing into the children array); otherwise the Location
branch runs; afterwards a truthy top-level `access_rules` overwrites the
node's.  `handleChildren` is the loop appending handled children (also
the loop in `import_locations_from_file` over the top-level array). -/
mutual
def handleLocationData (data : Json) : Option Node :=
  match data with
  | .jobj fields =>
    match hc : getField fields "children" with
    | some (Json.jarr cs) =>
      match getField fields "name" with
      | some (Json.jstr nm) =>
        match handleChildren cs with
        | some children => some (applyAccessRules fields (Node.area (AreaData.ofName nm) children))
        | none => none
      | _ => none
    | some _ => none
    | none =>
      match getField fields "name" with
      | some (Json.jstr nm) => handleLocBranch fields nm
      | _ => none
  | _ => none
termination_by sizeOf data
decreasing_by
  simp_wf
  have h1 := getField_sizeOf_lt _ _ _ hc
  simp at h1
  omega
def handleChildren (l : JsonList) : Option NodeList :=
  match l with
  | .nil => some .nil
  | .cons c rest =>
    match handleLocationData c, handleChildren rest with
    | some n, some ns => some (.cons n ns)
    | _, _ => none
termination_by sizeOf l
decreasing_by
  all_goals simp_wf
  all_goals omega
end

/-! ### Reading the file: comment stripping before JSON parsing -/

/-- `f.readlines()`: split text into lines, each keeping its trailing
newline (the last line may lack one). -/
def readlinesAux : List Char → List Char → List (List Char)
  | [], acc => if acc.isEmpty then [] else [acc.reverse]
  | c :: cs, acc =>
    if c = '\n' then (acc.reverse ++ ['\n']) :: readlinesAux cs []
    else readlinesAux cs (c :: acc)

def readlines (t : List Char) : List (List Char) := readlinesAux t []

/-- Python `str.strip()`: remove leading and trailing whitespace. -/
def pyStrip (l : List Char) : List Char :=
  ((l.dropWhile Char.isWhitespace).reverse.dropWhile Char.isWhitespace).reverse

/-- `line.strip().startswith('//')`. -/
def isCommentLine (l : List Char) : Bool :=
  match pyStrip l with
  | '/' :: '/' :: _ => true
  | _ => false

def keepLine (l : List Char) : Bool := !isCommentLine l

/-- Filter out comment lines and rejoin, exactly the text handed to
`json.loads`. -/
def preprocess (t : List Char) : List Char := ((readlines t).filter keepLine).flatten

/-- `import_locations_from_file`.  `json.loads` is an external library
service, passed in as `parse`; a parse failure propagates (`none`), a
parsed top-level array is handled element by element. -/
def import_locations_from_file (parse : List Char → Option Json) (text : List Char) :
    Option NodeList :=
  match parse (preprocess text) with
  | some (Json.jarr ds) => handleChildren ds
  | _ => none

/-! ### Lookup lemmas over serialized objects -/

theorem getField_nil (k : String) : getField .nil k = none := rfl

theorem getField_cons_self (k : String) (v : Json) (rest : JsonFields) :
    getField (.cons k v rest) k = some v := by simp [getField]

theorem getField_cons_ne (k k' : String) (v : Json) (rest : JsonFields) (h : k ≠ k') :
    getField (.cons k v rest) k' = getField rest k' := by simp [getField, h]

theorem fields_nil_append (f : JsonFields) : JsonFields.nil ++ f = f := rfl

theorem fields_cons_append (k : String) (v : Json) (t f : JsonFields) :
    (JsonFields.cons k v t) ++ f = .cons k v (t ++ f) := rfl

theorem fields_append_assoc : (a : JsonFields) → ∀ b c : JsonFields,
    (a ++ b) ++ c = a ++ (b ++ c)
  | .nil, _, _ => rfl
  | .cons k v t, b, c => by
    simp only [fields_cons_append, fields_append_assoc t b c]

theorem getField_ifSingle_self (c : Prop) [Decidable c] (k : String) (v : Json)
    (f : JsonFields) :
    getField ((if c then JsonFields.cons k v .nil else .nil) ++ f) k =
      if c then some v else getField f k := by
  by_cases hcp : c <;>
    simp [hcp, fields_nil_append, fields_cons_append, getField, JsonFields.append]

theorem getField_ifSingle_ne (c : Prop) [Decidable c] (k k' : String) (v : Json)
    (f : JsonFields) (h : k ≠ k') :
    getField ((if c then JsonFields.cons k v .nil else .nil) ++ f) k' = getField f k' := by
  by_cases hcp : c <;>
    simp [hcp, fields_nil_append, fields_cons_append, getField, JsonFields.append, h]

theorem getField_ifSingle_self' (c : Prop) [Decidable c] (k : String) (v : Json) :
    getField (if c then JsonFields.cons k v .nil else .nil) k =
      if c then some v else none := by
  by_cases hcp : c <;> simp [hcp, getField]

theorem getField_ifSingle_ne' (c : Prop) [Decidable c] (k k' : String) (v : Json)
    (h : k ≠ k') :
    getField (if c then JsonFields.cons k v .nil else .nil) k' = none := by
  by_cases hcp : c <;> simp [hcp, getField, h]

theorem optStrEntry_eq (k : String) (v : Option String) :
    optStrEntry k v =
      if optStrTruthy v then JsonFields.cons k (.jstr (v.getD "")) .nil else .nil := by
  match v with
  | none => simp [optStrEntry, optStrTruthy]
  | some s => by_cases h : s = "" <;> simp [optStrEntry, optStrTruthy, h]

theorem optIntEntry_eq (k : String) (v : Option Int) :
    optIntEntry k v =
      if optIntTruthy v then JsonFields.cons k (.jint (v.getD 0)) .nil else .nil := by
  match v with
  | none => simp [optIntEntry, optIntTruthy]
  | some n => by_cases h : n = 0 <;> simp [optIntEntry, optIntTruthy, h]

theorem truthyEntry_eq (k : String) (v : Json) :
    truthyEntry k v = if jsonTruthy v then JsonFields.cons k v .nil else .nil := rfl

/-! ### Per-key lookups on serialized Sections -/

theorem sec_lookup_name (s : Pop.Section) :
    getField s.fields "name" = some (.jstr s.name) := by
  simp [Section.fields, getField]

theorem sec_lookup_item_count (s : Pop.Section) :
    getField s.fields "item_count" =
      if s.item_count != 1 || !optStrTruthy s.hosted_item then some (.jint s.item_count)
      else none := by
  simp [Section.fields, fields_append_assoc, optStrEntry_eq, truthyEntry_eq,
    getField_cons_ne, getField_ifSingle_self, getField_ifSingle_ne,
    getField_ifSingle_self', getField_ifSingle_ne']

theorem sec_lookup_clear_as_group (s : Pop.Section) :
    getField s.fields "clear_as_group" =
      if s.clear_as_group then some (.jbool s.clear_as_group) else none := by
  simp [Section.fields, fields_append_assoc, optStrEntry_eq, truthyEntry_eq,
    getField_cons_ne, getField_ifSingle_self, getField_ifSingle_ne,
    getField_ifSingle_self', getField_ifSingle_ne']

theorem sec_lookup_chest_unopened_img (s : Pop.Section) :
    getField s.fields "chest_unopened_img" =
      if optStrTruthy s.chest_unopened_img then some (.jstr (s.chest_unopened_img.getD ""))
      else none := by
  simp [Section.fields, fields_append_assoc, optStrEntry_eq, truthyEntry_eq,
    getField_cons_ne, getField_ifSingle_self, getField_ifSingle_ne,
    getField_ifSingle_self', getField_ifSingle_ne']

theorem sec_lookup_chest_opened_img (s : Pop.Section) :
    getField s.fields "chest_opened_img" =
      if optStrTruthy s.chest_opened_img then some (.jstr (s.chest_opened_img.getD ""))
      else none := by
  simp [Section.fields, fields_append_assoc, optStrEntry_eq, truthyEntry_eq,
    getField_cons_ne, getField_ifSingle_self, getField_ifSingle_ne,
    getField_ifSingle_self', getField_ifSingle_ne']

theorem sec_lookup_access_rules (s : Pop.Section) :
    getField s.fields "access_rules" =
      if jsonTruthy s.access_rules then some s.access_rules else none := by
  simp [Section.fields, fields_append_assoc, optStrEntry_eq, truthyEntry_eq,
    getField_cons_ne, getField_ifSingle_self, getField_ifSingle_ne,
    getField_ifSingle_self', getField_ifSingle_ne']

theorem sec_lookup_visibility_rules (s : Pop.Section) :
    getField s.fields "visibility_rules" =
      if jsonTruthy s.visibility_rules then some s.visibility_rules else none := by
  simp [Section.fields, fields_append_assoc, optStrEntry_eq, truthyEntry_eq,
    getField_cons_ne, getField_ifSingle_self, getField_ifSingle_ne,
    getField_ifSingle_self', getField_ifSingle_ne']

theorem sec_lookup_hosted_item (s : Pop.Section) :
    getField s.fields "hosted_item" =
      if optStrTruthy s.hosted_item then some (.jstr (s.hosted_item.getD "")) else none := by
  simp [Section.fields, fields_append_assoc, optStrEntry_eq, truthyEntry_eq,
    getField_cons_ne, getField_ifSingle_self, getField_ifSingle_ne,
    getField_ifSingle_self', getField_ifSingle_ne']

theorem sec_lookup_location_id (s : Pop.Section) :
    getField s.fields "location_id" = none := by
  simp [Section.fields, fields_append_assoc, optStrEntry_eq, truthyEntry_eq,
    getField_cons_ne, getField_ifSingle_self, getField_ifSingle_ne,
    getField_ifSingle_self', getField_ifSingle_ne']

/-! ### Normal forms produced by the importer -/

/-- What survives an emit-if-truthy round trip of an optional string. -/
def normOptStr (v : Option String) : Option String := if optStrTruthy v then v else none

/-- What survives an emit-if-truthy round trip of an optional integer. -/
def normOptInt (v : Option Int) : Option Int := if optIntTruthy v then v else none

/-- What an `access_rules` slot becomes after serialize + import
(`or []` on the constructor). -/
def normRules (v : Json) : Json := if jsonTruthy v then v else .jarr .nil

/-- What a raw stored-as-is slot becomes after serialize + import
(`dict.get` gives `None` when it was not emitted). -/
def normVis (v : Json) : Json := if jsonTruthy v then v else .null

theorem jsonTruthy_arr_nil : jsonTruthy (Json.jarr .nil) = false := rfl

theorem jsonTruthy_null : jsonTruthy Json.null = false := rfl

theorem optStrTruthy_none : optStrTruthy none = false := rfl

theorem optIntTruthy_none : optIntTruthy none = false := rfl

theorem optStrTruthy_norm (v : Option String) :
    optStrTruthy (normOptStr v) = optStrTruthy v := by
  by_cases h : optStrTruthy v <;> simp [normOptStr, h, optStrTruthy_none]

theorem optIntTruthy_norm (v : Option Int) :
    optIntTruthy (normOptInt v) = optIntTruthy v := by
  by_cases h : optIntTruthy v <;> simp [normOptInt, h, optIntTruthy_none]

theorem optStrEntry_norm (k : String) (v : Option String) :
    optStrEntry k (normOptStr v) = optStrEntry k v := by
  by_cases h : optStrTruthy v <;>
    simp [optStrEntry_eq, optStrTruthy_norm, h, normOptStr, optStrTruthy_none]

theorem optIntEntry_norm (k : String) (v : Option Int) :
    optIntEntry k (normOptInt v) = optIntEntry k v := by
  by_cases h : optIntTruthy v <;>
    simp [optIntEntry_eq, optIntTruthy_norm, h, normOptInt, optIntTruthy_none]

theorem truthyEntry_normRules (k : String) (v : Json) :
    truthyEntry k (normRules v) = truthyEntry k v := by
  by_cases h : jsonTruthy v
  · simp [normRules, h]
  · simp [normRules, truthyEntry, h, jsonTruthy_arr_nil]

theorem truthyEntry_normVis (k : String) (v : Json) :
    truthyEntry k (normVis v) = truthyEntry k v := by
  by_cases h : jsonTruthy v
  · simp [normVis, h]
  · simp [normVis, truthyEntry, h, jsonTruthy_null]

theorem optStr_getD_of_truthy (v : Option String) (h : optStrTruthy v = true) :
    some (v.getD "") = v := by
  cases v with
  | none => simp [optStrTruthy] at h
  | some s => rfl

theorem optInt_getD_of_truthy (v : Option Int) (h : optIntTruthy v = true) :
    some (v.getD 0) = v := by
  cases v with
  | none => simp [optIntTruthy] at h
  | some n => rfl

/-- The Section the importer rebuilds from `s.__json__()`. -/
def normSection (s : Pop.Section) : Pop.Section :=
  ⟨s.name, s.clear_as_group, normOptStr s.chest_unopened_img, normOptStr s.chest_opened_img,
   normOptStr s.hosted_item, normRules s.access_rules, normVis s.visibility_rules,
   .null, s.item_count⟩

theorem importSection_json (s : Pop.Section) :
    importSection s.json = some (normSection s) := by
  show importSection (Json.jobj s.fields) = some (normSection s)
  simp only [importSection, sec_lookup_name, Section.make, normSection]
  simp only [getD, sec_lookup_item_count, sec_lookup_clear_as_group,
    sec_lookup_chest_unopened_img, sec_lookup_chest_opened_img,
    sec_lookup_access_rules, sec_lookup_visibility_rules,
    sec_lookup_hosted_item, sec_lookup_location_id]
  by_cases hic : (s.item_count != 1 || !optStrTruthy s.hosted_item) = true <;>
  by_cases hcg : s.clear_as_group = true <;>
  by_cases hcu : optStrTruthy s.chest_unopened_img = true <;>
  by_cases hco : optStrTruthy s.chest_opened_img = true <;>
  by_cases har : jsonTruthy s.access_rules = true <;>
  by_cases hvr : jsonTruthy s.visibility_rules = true <;>
  by_cases hhi : optStrTruthy s.hosted_item = true <;>
  simp_all [asBool, asOptStr, asOptInt, normOptStr, normRules, normVis, jsonTruthy,
    optStr_getD_of_truthy]

theorem normSection_json (s : Pop.Section) : (normSection s).json = s.json := by
  simp only [Section.json, Section.fields, normSection, optStrTruthy_norm, optStrEntry_norm,
    truthyEntry_normRules, truthyEntry_normVis]

/-! ### Per-key lookups on serialized MapLocations -/

theorem pin_lookup_map (ml : MapLocation) :
    getField ml.fields "map" = some (.jstr ml.map.name) := by
  simp [MapLocation.fields, getField]

theorem pin_lookup_x (ml : MapLocation) :
    getField ml.fields "x" = some (.jint (pyInt (ratMul ml.x ml.map.scale) + ml.map.offset)) := by
  simp [MapLocation.fields, getField]

theorem pin_lookup_y (ml : MapLocation) :
    getField ml.fields "y" = some (.jint (pyInt (ratMul ml.y ml.map.scale) + ml.map.offset)) := by
  simp [MapLocation.fields, getField]

theorem pin_lookup_size (ml : MapLocation) :
    getField ml.fields "size" =
      if optIntTruthy ml.size then some (.jint (ml.size.getD 0)) else none := by
  simp [MapLocation.fields, fields_append_assoc, optIntEntry_eq, truthyEntry_eq,
    getField_cons_ne, getField_ifSingle_self, getField_ifSingle_ne,
    getField_ifSingle_self', getField_ifSingle_ne']

theorem pin_lookup_border_thickness (ml : MapLocation) :
    getField ml.fields "border_thickness" =
      if optIntTruthy ml.border_thickness then some (.jint (ml.border_thickness.getD 0))
      else none := by
  simp [MapLocation.fields, fields_append_assoc, optIntEntry_eq, truthyEntry_eq,
    getField_cons_ne, getField_ifSingle_self, getField_ifSingle_ne,
    getField_ifSingle_self', getField_ifSingle_ne']

theorem pin_lookup_restrict (ml : MapLocation) :
    getField ml.fields "restrict_visibility_rules" =
      if jsonTruthy ml.restrict_visibility_rules then some ml.restrict_visibility_rules
      else none := by
  simp [MapLocation.fields, fields_append_assoc, optIntEntry_eq, truthyEntry_eq,
    getField_cons_ne, getField_ifSingle_self, getField_ifSingle_ne,
    getField_ifSingle_self', getField_ifSingle_ne']

theorem pin_lookup_force (ml : MapLocation) :
    getField ml.fields "force_invisibility_rules" =
      if jsonTruthy ml.force_invisibility_rules then some ml.force_invisibility_rules
      else none := by
  simp [MapLocation.fields, fields_append_assoc, optIntEntry_eq, truthyEntry_eq,
    getField_cons_ne, getField_ifSingle_self, getField_ifSingle_ne,
    getField_ifSingle_self', getField_ifSingle_ne']

/-- The MapLocation the importer rebuilds from `ml.__json__()`: baked
coordinates on a fresh default Map. -/
def normMapLocation (ml : MapLocation) : MapLocation :=
  ⟨⟨ml.map.name, 1, 0⟩,
   ((pyInt (ratMul ml.x ml.map.scale) + ml.map.offset : Int) : ℚ),
   ((pyInt (ratMul ml.y ml.map.scale) + ml.map.offset : Int) : ℚ),
   normOptInt ml.size, normOptInt ml.border_thickness,
   normVis ml.restrict_visibility_rules, normVis ml.force_invisibility_rules⟩

theorem importMapLocation_json (ml : MapLocation) :
    importMapLocation ml.json = some (normMapLocation ml) := by
  show importMapLocation (Json.jobj ml.fields) = some (normMapLocation ml)
  simp only [importMapLocation, pin_lookup_map, pin_lookup_x,
    pin_lookup_y, normMapLocation]
  simp only [getD, pin_lookup_size, pin_lookup_border_thickness,
    pin_lookup_restrict, pin_lookup_force]
  by_cases hs : optIntTruthy ml.size = true <;>
  by_cases hb : optIntTruthy ml.border_thickness = true <;>
  by_cases hr : jsonTruthy ml.restrict_visibility_rules = true <;>
  by_cases hf : jsonTruthy ml.force_invisibility_rules = true <;>
  simp_all [asOptInt, normOptInt, normVis, optInt_getD_of_truthy]

theorem ratMul_one (q : ℚ) : ratMul q 1 = q := by rw [ratMul_eq_mul]; ring

theorem rebake_coord (n : Int) : pyInt (ratMul ((n : Int) : ℚ) 1) + 0 = n := by
  rw [ratMul_one, pyInt_intCast, add_zero]

theorem normMapLocation_json (ml : MapLocation) :
    (normMapLocation ml).json = ml.json := by
  simp only [MapLocation.json, MapLocation.fields, normMapLocation, rebake_coord,
    optIntEntry_norm, truthyEntry_normVis]

/-! ### Per-key lookups on serialized Locations -/

theorem loc_lookup_name (l : Location) :
    getField l.fields "name" = some (.jstr l.name) := by
  simp [Location.fields, getField]

theorem loc_lookup_children (l : Location) :
    getField l.fields "children" = none := by
  simp [Location.fields, fields_append_assoc, optStrEntry_eq, truthyEntry_eq,
    getField_cons_ne, getField_ifSingle_self, getField_ifSingle_ne,
    getField_ifSingle_self', getField_ifSingle_ne']

theorem loc_lookup_access_rules (l : Location) :
    getField l.fields "access_rules" =
      if jsonTruthy l.access_rules then some l.access_rules else none := by
  simp [Location.fields, fields_append_assoc, optStrEntry_eq, truthyEntry_eq,
    getField_cons_ne, getField_ifSingle_self, getField_ifSingle_ne,
    getField_ifSingle_self', getField_ifSingle_ne']

theorem loc_lookup_chest_unopened_img (l : Location) :
    getField l.fields "chest_unopened_img" =
      if optStrTruthy l.chest_unopened_img then some (.jstr (l.chest_unopened_img.getD ""))
      else none := by
  simp [Location.fields, fields_append_assoc, optStrEntry_eq, truthyEntry_eq,
    getField_cons_ne, getField_ifSingle_self, getField_ifSingle_ne,
    getField_ifSingle_self', getField_ifSingle_ne']

theorem loc_lookup_chest_opened_img (l : Location) :
    getField l.fields "chest_opened_img" =
      if optStrTruthy l.chest_opened_img then some (.jstr (l.chest_opened_img.getD ""))
      else none := by
  simp [Location.fields, fields_append_assoc, optStrEntry_eq, truthyEntry_eq,
    getField_cons_ne, getField_ifSingle_self, getField_ifSingle_ne,
    getField_ifSingle_self', getField_ifSingle_ne']

theorem loc_lookup_sections (l : Location) :
    getField l.fields "sections" =
      if listTruthy l.sections then some (.jarr (sectionsJsons l.sections)) else none := by
  simp [Location.fields, fields_append_assoc, optStrEntry_eq, truthyEntry_eq,
    getField_cons_ne, getField_ifSingle_self, getField_ifSingle_ne,
    getField_ifSingle_self', getField_ifSingle_ne']

theorem loc_lookup_map_locations (l : Location) :
    getField l.fields "map_locations" =
      if listTruthy l.map_locations then some (.jarr (mapLocationsJsons l.map_locations))
      else none := by
  simp [Location.fields, fields_append_assoc, optStrEntry_eq, truthyEntry_eq,
    getField_cons_ne, getField_ifSingle_self, getField_ifSingle_ne,
    getField_ifSingle_self', getField_ifSingle_ne']

/-! ### Round trip for Locations -/

theorem importSections_jsons (L : List Pop.Section) :
    importSections (sectionsJsons L) = some (L.map normSection) := by
  induction L with
  | nil => rfl
  | cons a t ih => simp [sectionsJsons, importSections, importSection_json, ih]

theorem sectionsJsons_norm (L : List Pop.Section) :
    sectionsJsons (L.map normSection) = sectionsJsons L := by
  induction L with
  | nil => rfl
  | cons a t ih => simp [sectionsJsons, normSection_json, ih]

theorem importMapLocations_jsons (L : List MapLocation) :
    importMapLocations (mapLocationsJsons L) = some (L.map normMapLocation) := by
  induction L with
  | nil => rfl
  | cons a t ih => simp [mapLocationsJsons, importMapLocations, importMapLocation_json, ih]

theorem mapLocationsJsons_norm (L : List MapLocation) :
    mapLocationsJsons (L.map normMapLocation) = mapLocationsJsons L := by
  induction L with
  | nil => rfl
  | cons a t ih => simp [mapLocationsJsons, normMapLocation_json, ih]

/-- The Location the importer rebuilds from `l.__json__()`: chest images
are not imported, sections and pins are rebuilt element by element. -/
def normLocation (l : Location) : Location :=
  ⟨l.name, normRules l.access_rules, none, none,
   l.map_locations.map normMapLocation, l.sections.map normSection⟩

theorem jsonTruthy_arr_cons (a : Json) (t : JsonList) :
    jsonTruthy (.jarr (.cons a t)) = true := rfl

theorem handleLocBranch_fields (l : Location) :
    handleLocBranch l.fields l.name = some (Node.location (normLocation l)) := by
  rw [handleLocBranch, importSectionsField, importMapLocationsField]
  simp only [getD, loc_lookup_sections, loc_lookup_map_locations,
    loc_lookup_access_rules]
  rcases hsec : l.sections with _ | ⟨s1, st⟩ <;>
  rcases hml : l.map_locations with _ | ⟨m1, mt⟩ <;>
  by_cases har : jsonTruthy l.access_rules = true <;>
  simp_all [listTruthy, importSections_jsons, importMapLocations_jsons,
    applyAccessRules, getD, loc_lookup_access_rules, Node.setAccessRules,
    normLocation, normRules, Location.ofName, jsonTruthy_null, jsonTruthy_arr_cons,
    sectionsJsons, mapLocationsJsons, importSections, importMapLocations,
    importSection_json, importMapLocation_json]

theorem handleLocationData_location (l : Location) :
    handleLocationData l.json = some (Node.location (normLocation l)) := by
  show handleLocationData (Json.jobj l.fields) = some (Node.location (normLocation l))
  rw [handleLocationData]
  split
  · rename_i cs heq
    rw [loc_lookup_children] at heq
    cases heq
  · rename_i v hno hsome
    rw [loc_lookup_children] at hsome
    cases hsome
  · simp only [loc_lookup_name]
    exact handleLocBranch_fields l

theorem isEmpty_map {α β : Type} (f : α → β) (L : List α) :
    (L.map f).isEmpty = L.isEmpty := by cases L <;> rfl

theorem normLocation_json (l : Location)
    (h1 : optStrTruthy l.chest_unopened_img = false)
    (h2 : optStrTruthy l.chest_opened_img = false) :
    (normLocation l).json = l.json := by
  simp only [Location.json, Location.fields, normLocation, truthyEntry_normRules,
    sectionsJsons_norm, mapLocationsJsons_norm, optStrEntry_eq, optStrTruthy_none,
    h1, h2, listTruthy, isEmpty_map]
  simp

/-! ### Per-key lookups on serialized Areas -/

theorem areaFieldsAux_lookup_name (d : AreaData) (cj : JsonList) :
    getField (areaFieldsAux d cj) "name" = some (.jstr d.name) := by
  simp [areaFieldsAux, getField]

theorem areaFieldsAux_lookup_children (d : AreaData) (cj : JsonList) :
    getField (areaFieldsAux d cj) "children" = some (.jarr cj) := by
  simp [areaFieldsAux, fields_append_assoc, optStrEntry_eq, truthyEntry_eq,
    getField_cons_ne, getField_cons_self, getField_ifSingle_self, getField_ifSingle_ne,
    getField_ifSingle_self', getField_ifSingle_ne', getField_nil]

theorem areaFieldsAux_lookup_access_rules (d : AreaData) (cj : JsonList) :
    getField (areaFieldsAux d cj) "access_rules" =
      if jsonTruthy d.access_rules then some d.access_rules else none := by
  simp [areaFieldsAux, fields_append_assoc, optStrEntry_eq, truthyEntry_eq,
    getField_cons_ne, getField_cons_self, getField_ifSingle_self, getField_ifSingle_ne,
    getField_ifSingle_self', getField_ifSingle_ne', getField_nil]

theorem areaFieldsAux_lookup_short_name (d : AreaData) (cj : JsonList) :
    getField (areaFieldsAux d cj) "short_name" =
      if optStrTruthy d.short_name then some (.jstr (d.short_name.getD "")) else none := by
  simp [areaFieldsAux, fields_append_assoc, optStrEntry_eq, truthyEntry_eq,
    getField_cons_ne, getField_cons_self, getField_ifSingle_self, getField_ifSingle_ne,
    getField_ifSingle_self', getField_ifSingle_ne', getField_nil]

theorem areaFieldsAux_lookup_visibility_rules (d : AreaData) (cj : JsonList) :
    getField (areaFieldsAux d cj) "visibility_rules" =
      if jsonTruthy d.visibility_rules then some d.visibility_rules else none := by
  simp [areaFieldsAux, fields_append_assoc, optStrEntry_eq, truthyEntry_eq,
    getField_cons_ne, getField_cons_self, getField_ifSingle_self, getField_ifSingle_ne,
    getField_ifSingle_self', getField_ifSingle_ne', getField_nil]

theorem areaFieldsAux_lookup_chest_unopened_img (d : AreaData) (cj : JsonList) :
    getField (areaFieldsAux d cj) "chest_unopened_img" =
      if optStrTruthy d.chest_unopened_img then some (.jstr (d.chest_unopened_img.getD ""))
      else none := by
  simp [areaFieldsAux, fields_append_assoc, optStrEntry_eq, truthyEntry_eq,
    getField_cons_ne, getField_cons_self, getField_ifSingle_self, getField_ifSingle_ne,
    getField_ifSingle_self', getField_ifSingle_ne', getField_nil]

theorem areaFieldsAux_lookup_chest_opened_img (d : AreaData) (cj : JsonList) :
    getField (areaFieldsAux d cj) "chest_opened_img" =
      if optStrTruthy d.chest_opened_img then some (.jstr (d.chest_opened_img.getD ""))
      else none := by
  simp [areaFieldsAux, fields_append_assoc, optStrEntry_eq, truthyEntry_eq,
    getField_cons_ne, getField_cons_self, getField_ifSingle_self, getField_ifSingle_ne,
    getField_ifSingle_self', getField_ifSingle_ne', getField_nil]

theorem areaFieldsAux_lookup_overlay_background (d : AreaData) (cj : JsonList) :
    getField (areaFieldsAux d cj) "overlay_background" =
      if optStrTruthy d.overlay_background then some (.jstr (d.overlay_background.getD ""))
      else none := by
  simp [areaFieldsAux, fields_append_assoc, optStrEntry_eq, truthyEntry_eq,
    getField_cons_ne, getField_cons_self, getField_ifSingle_self, getField_ifSingle_ne,
    getField_ifSingle_self', getField_ifSingle_ne', getField_nil]

theorem areaFieldsAux_lookup_color (d : AreaData) (cj : JsonList) :
    getField (areaFieldsAux d cj) "color" =
      if optStrTruthy d.color then some (.jstr (d.color.getD "")) else none := by
  simp [areaFieldsAux, fields_append_assoc, optStrEntry_eq, truthyEntry_eq,
    getField_cons_ne, getField_cons_self, getField_ifSingle_self, getField_ifSingle_ne,
    getField_ifSingle_self', getField_ifSingle_ne', getField_nil]

theorem areaFieldsAux_lookup_parent (d : AreaData) (cj : JsonList) :
    getField (areaFieldsAux d cj) "parent" =
      if optStrTruthy d.parent then some (.jstr (d.parent.getD "")) else none := by
  simp [areaFieldsAux, fields_append_assoc, optStrEntry_eq, truthyEntry_eq,
    getField_cons_ne, getField_cons_self, getField_ifSingle_self, getField_ifSingle_ne,
    getField_ifSingle_self', getField_ifSingle_ne', getField_nil]

/-! ### Round trip for forests -/

/-- The Area scalar slots the importer rebuilds: only `name` (and a later
`access_rules` overwrite) survive. -/
def normAreaData (d : AreaData) : AreaData :=
  ⟨d.name, none, normRules d.access_rules, .null, none, none, none, none, none⟩

mutual
def normNode : Node → Node
  | .area d cs => .area (normAreaData d) (normNodeList cs)
  | .location l => .location (normLocation l)
def normNodeList : NodeList → NodeList
  | .nil => .nil
  | .cons n t => .cons (normNode n) (normNodeList t)
end

/-- Area slots that are serialized but dropped by the importer are unset
(falsy). -/
def areaDataClean (d : AreaData) : Bool :=
  !optStrTruthy d.short_name && !jsonTruthy d.visibility_rules &&
  !optStrTruthy d.chest_unopened_img && !optStrTruthy d.chest_opened_img &&
  !optStrTruthy d.overlay_background && !optStrTruthy d.color && !optStrTruthy d.parent

/-- The claim's Map restriction: identity transform. -/
def mapClean (ml : MapLocation) : Bool :=
  decide (ml.map.scale = 1) && decide (ml.map.offset = 0)

/-- Location slots that are serialized but dropped by the importer are
unset, and every referenced Map is the identity transform. -/
def locationClean (l : Location) : Bool :=
  !optStrTruthy l.chest_unopened_img && !optStrTruthy l.chest_opened_img &&
  l.map_locations.all mapClean

mutual
def cleanNode : Node → Bool
  | .area d cs => areaDataClean d && cleanNodeList cs
  | .location l => locationClean l
def cleanNodeList : NodeList → Bool
  | .nil => true
  | .cons n t => cleanNode n && cleanNodeList t
end

theorem areaFieldsAux_norm (d : AreaData) (cj : JsonList) (h : areaDataClean d = true) :
    areaFieldsAux (normAreaData d) cj = areaFieldsAux d cj := by
  simp only [areaDataClean, Bool.and_eq_true, Bool.not_eq_true'] at h
  obtain ⟨⟨⟨⟨⟨⟨h1, h2⟩, h3⟩, h4⟩, h5⟩, h6⟩, h7⟩ := h
  simp only [areaFieldsAux, normAreaData]
  rw [truthyEntry_normRules]
  simp only [optStrEntry_eq, optStrTruthy_none, h1, h2, h3, h4, h5, h6, h7,
    truthyEntry_eq, jsonTruthy_null]
  simp

mutual
theorem handleLocationData_json (n : Node) (h : cleanNode n = true) :
    handleLocationData n.json = some (normNode n) ∧ (normNode n).json = n.json := by
  match n with
  | .location l =>
    have hl : locationClean l = true := h
    simp only [locationClean, Bool.and_eq_true, Bool.not_eq_true'] at hl
    exact ⟨handleLocationData_location l,
      normLocation_json l hl.1.1 hl.1.2⟩
  | .area d cs =>
    have hd : areaDataClean d = true ∧ cleanNodeList cs = true := by
      have := h
      simp only [cleanNode, Bool.and_eq_true] at this
      exact this
    have ih := handleChildren_jsons cs hd.2
    constructor
    · show handleLocationData (Json.jobj (areaFieldsAux d (NodeList.jsons cs))) = _
      rw [handleLocationData]
      split
      · rename_i cs2 heq
        rw [areaFieldsAux_lookup_children] at heq
        cases heq
        simp only [areaFieldsAux_lookup_name, ih.1]
        rw [applyAccessRules]
        simp only [getD, areaFieldsAux_lookup_access_rules]
        by_cases har : jsonTruthy d.access_rules = true
        · simp [har, Node.setAccessRules, normNode, normAreaData, AreaData.ofName,
            normRules]
        · simp [har, normNode, normAreaData, AreaData.ofName, normRules,
          jsonTruthy_null]
      · rename_i v hno hsome
        rw [areaFieldsAux_lookup_children] at hsome
        cases hsome
        exact absurd rfl (hno (NodeList.jsons cs))
      · rename_i hnone
        rw [areaFieldsAux_lookup_children] at hnone
        cases hnone
    · show (normNode (Node.area d cs)).json = (Node.area d cs).json
      simp only [normNode, Node.json, ih.2, areaFieldsAux_norm d _ hd.1]
theorem handleChildren_jsons (l : NodeList) (h : cleanNodeList l = true) :
    handleChildren (NodeList.jsons l) = some (normNodeList l) ∧
      NodeList.jsons (normNodeList l) = NodeList.jsons l := by
  match l with
  | .nil =>
    constructor
    · show handleChildren JsonList.nil = some (normNodeList .nil)
      rw [handleChildren]
      rfl
    · rfl
  | .cons n t =>
    have hh : cleanNode n = true ∧ cleanNodeList t = true := by
      have := h
      simp only [cleanNodeList, Bool.and_eq_true] at this
      exact this
    have ih1 := handleLocationData_json n hh.1
    have ih2 := handleChildren_jsons t hh.2
    constructor
    · show handleChildren (JsonList.cons n.json (NodeList.jsons t)) = _
      rw [handleChildren]
      simp [ih1.1, ih2.1, normNodeList]
    · show JsonList.cons (normNode n).json (NodeList.jsons (normNodeList t)) =
        JsonList.cons n.json (NodeList.jsons t)
      rw [ih1.2, ih2.2]
end

/-! ### Comment stripping: splitting and rejoining lines -/

/-- A line as `readlines` yields it, newline-terminated. -/
def ChunkMid (l : List Char) : Prop := ∃ m, l = m ++ ['\n'] ∧ '\n' ∉ m

/-- A final line without trailing newline. -/
def ChunkLast (l : List Char) : Prop := l ≠ [] ∧ '\n' ∉ l

/-- Shape of any `readlines` output: newline-terminated lines, the last
possibly bare. -/
def ValidLines (L : List (List Char)) : Prop :=
  (∀ l ∈ L, ChunkMid l) ∨
  ∃ M lst, L = M ++ [lst] ∧ (∀ l ∈ M, ChunkMid l) ∧ ChunkLast lst

theorem readlinesAux_mid : ∀ (m acc cs : List Char), '\n' ∉ m →
    readlinesAux (m ++ '\n' :: cs) acc = (acc.reverse ++ m ++ ['\n']) :: readlinesAux cs []
  | [], acc, cs, _ => by simp [readlinesAux]
  | c :: m, acc, cs, hm => by
    have hc : ¬ c = '\n' := fun h => hm (h ▸ List.mem_cons_self c m)
    have hm2 : '\n' ∉ m := fun h => hm (List.mem_cons_of_mem c h)
    simp only [List.cons_append, readlinesAux, if_neg hc]
    rw [show m.append ('\n' :: cs) = m ++ '\n' :: cs from rfl]
    rw [readlinesAux_mid m (c :: acc) cs hm2]
    simp

theorem readlinesAux_last : ∀ (m acc : List Char), '\n' ∉ m →
    readlinesAux m acc =
      if acc.reverse ++ m = [] then [] else [acc.reverse ++ m]
  | [], acc, _ => by
    rcases acc with _ | ⟨a, t2⟩ <;> simp [readlinesAux]
  | c :: m, acc, hm => by
    have hc : ¬ c = '\n' := fun h => hm (h ▸ List.mem_cons_self c m)
    have hm2 : '\n' ∉ m := fun h => hm (List.mem_cons_of_mem c h)
    simp only [readlinesAux, if_neg hc]
    rw [readlinesAux_last m (c :: acc) hm2]
    simp [List.append_ne_nil_of_right_ne_nil]

theorem readlines_flatten_mid : ∀ (L : List (List Char)), (∀ l ∈ L, ChunkMid l) →
    readlines L.flatten = L
  | [], _ => rfl
  | l :: rest, h => by
    obtain ⟨m, hl, hm⟩ := h l (List.mem_cons_self l rest)
    subst hl
    show readlinesAux ((m ++ ['\n']) ++ rest.flatten) [] = _
    rw [show (m ++ ['\n']) ++ rest.flatten = m ++ '\n' :: rest.flatten by simp]
    rw [readlinesAux_mid m [] rest.flatten hm]
    rw [show readlinesAux rest.flatten [] = readlines rest.flatten from rfl]
    rw [readlines_flatten_mid rest (fun x hx => h x (List.mem_cons_of_mem _ hx))]
    simp

theorem readlines_flatten_last : ∀ (M : List (List Char)) (lst : List Char),
    (∀ l ∈ M, ChunkMid l) → ChunkLast lst →
    readlines ((M ++ [lst]).flatten) = M ++ [lst]
  | [], lst, _, hl => by
    show readlinesAux ([lst].flatten) [] = [lst]
    rw [show ([lst] : List (List Char)).flatten = lst by simp]
    rw [readlinesAux_last lst [] hl.2]
    simp [hl.1]
  | l :: M, lst, h, hl => by
    obtain ⟨m, hleq, hm⟩ := h l (List.mem_cons_self l M)
    subst hleq
    show readlinesAux (((m ++ ['\n']) :: (M ++ [lst])).flatten) [] = _
    rw [show ((m ++ ['\n']) :: (M ++ [lst])).flatten =
      m ++ '\n' :: (M ++ [lst]).flatten by simp]
    rw [readlinesAux_mid m [] _ hm]
    rw [show readlinesAux (M ++ [lst]).flatten [] = readlines (M ++ [lst]).flatten from rfl]
    rw [readlines_flatten_last M lst (fun x hx => h x (List.mem_cons_of_mem _ hx)) hl]
    simp

theorem readlines_flatten (L : List (List Char)) (h : ValidLines L) :
    readlines L.flatten = L := by
  rcases h with h | ⟨M, lst, rfl, hM, hl⟩
  · exact readlines_flatten_mid L h
  · exact readlines_flatten_last M lst hM hl

theorem validLines_cons (x : List Char) (L : List (List Char))
    (hx : ChunkMid x) (hL : ValidLines L) : ValidLines (x :: L) := by
  rcases hL with h | ⟨M, lst, rfl, hM, hl⟩
  · left
    intro l hn
    rcases List.mem_cons.mp hn with rfl | hn
    · exact hx
    · exact h l hn
  · right
    refine ⟨x :: M, lst, rfl, ?_, hl⟩
    intro l hn
    rcases List.mem_cons.mp hn with rfl | hn
    · exact hx
    · exact hM l hn

theorem validLines_readlinesAux : ∀ (t acc : List Char), '\n' ∉ acc →
    ValidLines (readlinesAux t acc)
  | [], acc, hacc => by
    rcases acc with _ | ⟨a, r⟩
    · left
      intro l hl
      simp [readlinesAux] at hl
    · right
      refine ⟨[], (a :: r).reverse, by simp [readlinesAux], by simp, ?_, ?_⟩
      · simp
      · simp only [List.mem_reverse]
        exact hacc
  | c :: cs, acc, hacc => by
    by_cases hc : c = '\n'
    · subst hc
      simp only [readlinesAux, if_pos rfl]
      refine validLines_cons _ _ ⟨acc.reverse, rfl, ?_⟩ (validLines_readlinesAux cs [] (by simp))
      simp only [List.mem_reverse]
      exact hacc
    · simp only [readlinesAux, if_neg hc]
      refine validLines_readlinesAux cs (c :: acc) ?_
      intro hmem
      rcases List.mem_cons.mp hmem with h1 | h1
      · exact hc h1.symm
      · exact hacc h1

theorem validLines_readlines (t : List Char) : ValidLines (readlines t) :=
  validLines_readlinesAux t [] (by simp)

theorem validLines_filter (L : List (List Char)) (p : List Char → Bool)
    (h : ValidLines L) : ValidLines (L.filter p) := by
  rcases h with h | ⟨M, lst, rfl, hM, hl⟩
  · left
    intro l hn
    exact h l (List.mem_of_mem_filter hn)
  · rw [List.filter_append]
    by_cases hp : p lst = true
    · right
      exact ⟨M.filter p, lst, by simp [hp], fun l hn => hM l (List.mem_of_mem_filter hn), hl⟩
    · left
      intro l hn
      simp [hp] at hn
      exact hM l hn.1

theorem filter_idem {α : Type} (p : α → Bool) (l : List α) :
    (l.filter p).filter p = l.filter p := by
  induction l with
  | nil => rfl
  | cons a t ih =>
    by_cases hp : p a = true <;> simp [List.filter_cons, hp, ih]

/-- Stripping comment lines is idempotent: the text handed to the JSON
parser is the same whether or not the comment lines were already
removed. -/
theorem preprocess_idem (t : List Char) : preprocess (preprocess t) = preprocess t := by
  show ((readlines ((readlines t).filter keepLine).flatten).filter keepLine).flatten = _
  rw [readlines_flatten _ (validLines_filter _ _ (validLines_readlines t)), filter_idem]
  rfl

/-! ### Characterizing `_handle_location_data` on objects -/

theorem handleLocationData_obj (fields : JsonFields) :
    handleLocationData (.jobj fields) =
      match getField fields "children" with
      | some (Json.jarr cs) =>
        (match getField fields "name" with
         | some (Json.jstr nm) =>
            (match handleChildren cs with
             | some children =>
               some (applyAccessRules fields (Node.area (AreaData.ofName nm) children))
             | none => none)
         | _ => none)
      | some _ => none
      | none =>
        (match getField fields "name" with
         | some (Json.jstr nm) => handleLocBranch fields nm
         | _ => none) := by
  rw [handleLocationData]
  split
  · rename_i cs heq
    rw [heq]
  · rename_i v hno hsome
    rw [hsome]
    match v, hno with
    | Json.null, _ => rfl
    | Json.jbool b, _ => rfl
    | Json.jint n, _ => rfl
    | Json.jstr s2, _ => rfl
    | Json.jobj f2, _ => rfl
    | Json.jarr cs, hno => exact absurd rfl (hno cs)
  · rename_i hnone
    rw [hnone]

/-- The `access_rules` slot of a built node. -/
def Node.accessRules : Node → Json
  | .area d _ => d.access_rules
  | .location l => l.access_rules

def Node.isArea : Node → Bool
  | .area _ _ => true
  | .location _ => false

theorem accessRules_setAccessRules (base : Node) (v : Json) :
    Node.accessRules (base.setAccessRules v) = v := by
  cases base <;> rfl

theorem accessRules_applyAccessRules (fields : JsonFields) (base : Node) (rules : JsonList)
    (hbase : Node.accessRules base = .jarr .nil)
    (hr : getField fields "access_rules" = some (.jarr rules)) :
    Node.accessRules (applyAccessRules fields base) = .jarr rules := by
  rw [applyAccessRules]
  rw [getD, hr]
  cases rules with
  | nil =>
    simp only [Option.getD_some, jsonTruthy_arr_nil, Bool.false_eq_true, if_false]
    exact hbase
  | cons a t =>
    simp only [Option.getD_some, jsonTruthy_arr_cons, if_true]
    exact accessRules_setAccessRules base _

/-! ### Claim theorems -/

/-- C2, counterexample: the claim states the serialized `x` equals
`floor(raw_x * map.scale) + map.offset` for all raw coordinates.  At
`Map("m", scale=1, offset=0)` and `raw_x = -3/2` the code's `int()` cast
truncates toward zero and serializes `x = -1`, while
`floor(-3/2 * 1) + 0 = -2`. -/
theorem c2_counterexample :
    getField (MapLocation.fields ((Map.mk "m" 1 0).location (Rat.divInt (-3) 2) 0)) "x" ≠
      some (.jint (⌊((Map.mk "m" 1 0).location (Rat.divInt (-3) 2) 0).x *
          ((Map.mk "m" 1 0).location (Rat.divInt (-3) 2) 0).map.scale⌋ +
        ((Map.mk "m" 1 0).location (Rat.divInt (-3) 2) 0).map.offset)) := by
  have h1 : getField (MapLocation.fields ((Map.mk "m" 1 0).location (Rat.divInt (-3) 2) 0))
      "x" = some (.jint (-1)) := by decide
  have h2 : (⌊((Map.mk "m" 1 0).location (Rat.divInt (-3) 2) 0).x *
      ((Map.mk "m" 1 0).location (Rat.divInt (-3) 2) 0).map.scale⌋ +
      ((Map.mk "m" 1 0).location (Rat.divInt (-3) 2) 0).map.offset) = -2 := by
    show ⌊(Rat.divInt (-3) 2 : ℚ) * (1 : ℚ)⌋ + (0 : Int) = -2
    rw [Rat.divInt_eq_div, mul_one, add_zero]
    norm_num [Int.floor_eq_iff]
  rw [h1, h2]
  simp

/-- C2, amended: for every MapLocation the serialized `x` (resp. `y`)
equals `int(raw_x * map.scale) + map.offset` where `int` truncates toward
zero (`pyInt`); this coincides with `floor` whenever the product is
non-negative; and the claim's example Map(scale=2, offset=10),
location(3, 5) serializes to x = 16, y = 20. -/
theorem c2_serialized_coordinates (ml : MapLocation) :
    getField ml.fields "x" = some (.jint (pyInt (ml.x * ml.map.scale) + ml.map.offset)) ∧
    getField ml.fields "y" = some (.jint (pyInt (ml.y * ml.map.scale) + ml.map.offset)) ∧
    (0 ≤ ml.x * ml.map.scale → pyInt (ml.x * ml.map.scale) = ⌊ml.x * ml.map.scale⌋) ∧
    getField (MapLocation.fields ((Map.mk "m" 2 10).location 3 5)) "x" = some (.jint 16) ∧
    getField (MapLocation.fields ((Map.mk "m" 2 10).location 3 5)) "y" = some (.jint 20) := by
  refine ⟨?_, ?_, ?_, ?_, ?_⟩
  · rw [pin_lookup_x, ratMul_eq_mul]
  · rw [pin_lookup_y, ratMul_eq_mul]
  · intro h
    exact pyInt_of_nonneg _ h
  · decide
  · decide

/-- Witness for C2: the theorem applied at the claim's example pin, its
non-negativity hypothesis discharged at `3 * 2`. -/
theorem c2_witness :
    pyInt ((3 : ℚ) * 2) = ⌊(3 : ℚ) * 2⌋ ∧
    getField (MapLocation.fields ((Map.mk "m" 2 10).location 3 5)) "x" = some (.jint 16) :=
  ⟨(c2_serialized_coordinates ((Map.mk "m" 2 10).location 3 5)).2.2.1
      (mul_nonneg (by decide) (by decide)),
   (c2_serialized_coordinates ((Map.mk "m" 2 10).location 3 5)).2.2.2.1⟩

/-- C3: a serialized Section omits `item_count` exactly when the stored
count is 1 and `hosted_item` is truthy; otherwise `item_count` is present
with exactly the stored value (including 0). -/
theorem c3_item_count_emission (s : Pop.Section) :
    (getField s.fields "item_count" = none ↔
      s.item_count = 1 ∧ optStrTruthy s.hosted_item = true) ∧
    (¬(s.item_count = 1 ∧ optStrTruthy s.hosted_item = true) →
      getField s.fields "item_count" = some (.jint s.item_count)) := by
  rw [sec_lookup_item_count]
  by_cases h1 : s.item_count = 1 <;> by_cases h2 : optStrTruthy s.hosted_item = true <;>
    simp [h1, h2]

/-- Witness for C3: a hosted single-check Section omits `item_count`; a
Section with stored count 0 emits `item_count: 0`. -/
theorem c3_witness :
    getField (Section.make "Boss" false none none none (some "Kill")
      .null .null .null).fields "item_count" = none ∧
    getField (Section.make "Empty" false none none (some 0) none
      .null .null .null).fields "item_count" = some (.jint 0) :=
  ⟨(c3_item_count_emission _).1.mpr (by decide),
   (c3_item_count_emission _).2 (by decide)⟩

/-- C4: a Section built without explicit `item_count` derives it as the
length of a list-shaped `location_id`, else 1; an explicit `item_count`
is stored unchanged. -/
theorem c4_item_count_default :
    (∀ (name : String) (cg : Bool) (cui coi : Option String) (hi : Option String)
       (ar vr : Json) (lid : JsonList),
      (Section.make name cg cui coi none hi ar vr (.jarr lid)).item_count =
        (JsonList.length lid : Int)) ∧
    (∀ (name : String) (cg : Bool) (cui coi : Option String) (hi : Option String)
       (ar vr : Json) (lid : Json), (∀ l, lid ≠ .jarr l) →
      (Section.make name cg cui coi none hi ar vr lid).item_count = 1) ∧
    (∀ (name : String) (cg : Bool) (cui coi : Option String) (n : Int)
       (hi : Option String) (ar vr lid : Json),
      (Section.make name cg cui coi (some n) hi ar vr lid).item_count = n) := by
  refine ⟨fun _ _ _ _ _ _ _ _ => rfl, ?_, fun _ _ _ _ _ _ _ _ _ => rfl⟩
  intro name cg cui coi hi ar vr lid h
  match lid with
  | Json.null => rfl
  | Json.jbool _ => rfl
  | Json.jint _ => rfl
  | Json.jstr _ => rfl
  | Json.jobj _ => rfl
  | Json.jarr l => exact absurd rfl (h l)

/-- Witness for C4: derived count 2 from a two-element `location_id`,
derived count 1 from a scalar one, explicit count 7 stored unchanged. -/
theorem c4_witness :
    (Section.make "S" false none none none none .null .null
      (.jarr (.cons (.jint 1) (.cons (.jint 2) .nil)))).item_count = 2 ∧
    (Section.make "S" false none none none none .null .null (.jint 5)).item_count = 1 ∧
    (Section.make "S" false none none (some 7) none .null .null
      (.jarr (.cons (.jint 1) .nil))).item_count = 7 :=
  ⟨c4_item_count_default.1 "S" false none none none .null .null
      (.cons (.jint 1) (.cons (.jint 2) .nil)),
   c4_item_count_default.2.1 "S" false none none none .null .null (.jint 5)
      (fun l h => Json.noConfusion h),
   c4_item_count_default.2.2 "S" false none none 7 none .null .null
      (.jarr (.cons (.jint 1) .nil))⟩

/-- C8: `location_id` is never part of a Section's serialized mapping,
while the constructor stores it unchanged on the in-memory object. -/
theorem c8_location_id_side_channel (s : Pop.Section) (name : String) (cg : Bool)
    (cui coi : Option String) (ic : Option Int) (hi : Option String) (ar vr lid : Json) :
    getField s.fields "location_id" = none ∧
    (Section.make name cg cui coi ic hi ar vr lid).location_id = lid :=
  ⟨sec_lookup_location_id s, rfl⟩

/-- C5: optional Area/Location fields left at their defaults are absent
from the serialized mapping; `name` and `children` are always present on
an Area, `name` on a Location, and `map`/`x`/`y` on a MapLocation. -/
theorem c5_default_omission (d : AreaData) (cj : JsonList) (l : Location)
    (ml : MapLocation) :
    (d.short_name = none → getField (areaFieldsAux d cj) "short_name" = none) ∧
    (d.access_rules = .jarr .nil → getField (areaFieldsAux d cj) "access_rules" = none) ∧
    (d.visibility_rules = .null → getField (areaFieldsAux d cj) "visibility_rules" = none) ∧
    (d.chest_unopened_img = none →
      getField (areaFieldsAux d cj) "chest_unopened_img" = none) ∧
    (d.chest_opened_img = none → getField (areaFieldsAux d cj) "chest_opened_img" = none) ∧
    (d.overlay_background = none →
      getField (areaFieldsAux d cj) "overlay_background" = none) ∧
    (d.color = none → getField (areaFieldsAux d cj) "color" = none) ∧
    (d.parent = none → getField (areaFieldsAux d cj) "parent" = none) ∧
    getField (areaFieldsAux d cj) "name" = some (.jstr d.name) ∧
    getField (areaFieldsAux d cj) "children" = some (.jarr cj) ∧
    (l.access_rules = .jarr .nil → getField l.fields "access_rules" = none) ∧
    (l.chest_unopened_img = none → getField l.fields "chest_unopened_img" = none) ∧
    (l.chest_opened_img = none → getField l.fields "chest_opened_img" = none) ∧
    (l.sections = [] → getField l.fields "sections" = none) ∧
    (l.map_locations = [] → getField l.fields "map_locations" = none) ∧
    getField l.fields "name" = some (.jstr l.name) ∧
    getField ml.fields "map" = some (.jstr ml.map.name) ∧
    (getField ml.fields "x").isSome = true ∧
    (getField ml.fields "y").isSome = true ∧
    (ml.size = none → getField ml.fields "size" = none) ∧
    (ml.border_thickness = none → getField ml.fields "border_thickness" = none) ∧
    (ml.restrict_visibility_rules = .null →
      getField ml.fields "restrict_visibility_rules" = none) ∧
    (ml.force_invisibility_rules = .null →
      getField ml.fields "force_invisibility_rules" = none) := by
  refine ⟨?_, ?_, ?_, ?_, ?_, ?_, ?_, ?_, ?_, ?_, ?_, ?_, ?_, ?_, ?_, ?_, ?_, ?_, ?_,
    ?_, ?_, ?_, ?_⟩ <;>
  try intro h
  all_goals
    simp_all [areaFieldsAux_lookup_short_name, areaFieldsAux_lookup_access_rules,
      areaFieldsAux_lookup_visibility_rules, areaFieldsAux_lookup_chest_unopened_img,
      areaFieldsAux_lookup_chest_opened_img, areaFieldsAux_lookup_overlay_background,
      areaFieldsAux_lookup_color, areaFieldsAux_lookup_parent, areaFieldsAux_lookup_name,
      areaFieldsAux_lookup_children, loc_lookup_access_rules,
      loc_lookup_chest_unopened_img, loc_lookup_chest_opened_img,
      loc_lookup_sections, loc_lookup_map_locations, loc_lookup_name,
      pin_lookup_map, pin_lookup_x, pin_lookup_y,
      pin_lookup_size, pin_lookup_border_thickness,
      pin_lookup_restrict, pin_lookup_force,
      optStrTruthy_none, optIntTruthy_none, jsonTruthy_arr_nil, jsonTruthy_null,
      listTruthy]

/-- Witness for C5: all defaults at concrete Area/Location/MapLocation,
each implication's hypothesis discharged by `rfl`. -/
theorem c5_witness :
    getField (areaFieldsAux (AreaData.ofName "A") .nil) "short_name" = none ∧
    getField (areaFieldsAux (AreaData.ofName "A") .nil) "children" = some (.jarr .nil) ∧
    getField (Location.ofName "L").fields "sections" = none ∧
    getField ((Map.mk "m" 1 0).location 1 2).fields "size" = none :=
  ⟨(c5_default_omission (AreaData.ofName "A") .nil (Location.ofName "L")
      ((Map.mk "m" 1 0).location 1 2)).1 rfl,
   (c5_default_omission (AreaData.ofName "A") .nil (Location.ofName "L")
      ((Map.mk "m" 1 0).location 1 2)).2.2.2.2.2.2.2.2.2.1,
   (c5_default_omission (AreaData.ofName "A") .nil (Location.ofName "L")
      ((Map.mk "m" 1 0).location 1 2)).2.2.2.2.2.2.2.2.2.2.2.2.2.1 rfl,
   (c5_default_omission (AreaData.ofName "A") .nil (Location.ofName "L")
      ((Map.mk "m" 1 0).location 1 2)).2.2.2.2.2.2.2.2.2.2.2.2.2.2.2.2.2.2.2.1 rfl⟩

/-- C6: when a descriptor carries a top-level `access_rules` entry (a rule
array, per the schema), the built node's `access_rules` equals that value,
for Area and Location descriptors alike (truthy arrays overwrite the
constructed default; the empty array coincides with it). -/
theorem c6_access_rules_overwrite (fields : JsonFields) (rules : JsonList) (n : Node)
    (hr : getField fields "access_rules" = some (.jarr rules))
    (hn : handleLocationData (.jobj fields) = some n) :
    n.accessRules = .jarr rules := by
  rw [handleLocationData_obj] at hn
  split at hn
  · split at hn
    · split at hn
      · cases hn
        exact accessRules_applyAccessRules fields _ rules rfl hr
      · cases hn
    · cases hn
  · cases hn
  · split at hn
    · unfold handleLocBranch at hn
      cases h1 : importSectionsField fields with
      | none =>
        rw [h1] at hn
        cases h2 : importMapLocationsField fields <;> rw [h2] at hn <;> cases hn
      | some secs =>
        rw [h1] at hn
        cases h2 : importMapLocationsField fields with
        | none => rw [h2] at hn; cases hn
        | some mls =>
          rw [h2] at hn
          cases hn
          exact accessRules_applyAccessRules fields _ rules rfl hr
    · cases hn

/-- Witness for C6: a Location descriptor carrying
`access_rules: ["r"]` imports with exactly that rule list. -/
theorem c6_witness :
    Node.accessRules (Node.location ⟨"L", .jarr (.cons (.jstr "r") .nil), none, none,
      [], []⟩) = .jarr (.cons (.jstr "r") .nil) :=
  c6_access_rules_overwrite
    (.cons "name" (.jstr "L") (.cons "access_rules" (.jarr (.cons (.jstr "r") .nil)) .nil))
    (.cons (.jstr "r") .nil) _ (by decide)
    (by simp [handleLocationData, handleLocBranch, importSectionsField,
      importMapLocationsField, importSections, importMapLocations, getField, getD,
      applyAccessRules, jsonTruthy, Node.setAccessRules, Location.ofName])

/-- Membership in a JSON array. -/
def jmem (x : Json) : JsonList → Prop
  | .nil => False
  | .cons h t => x = h ∨ jmem x t

theorem handleChildren_eq_none : ∀ (ds : JsonList) (d : Json), jmem d ds →
    handleLocationData d = none → handleChildren ds = none
  | .cons c rest, d, hmem, hnone => by
    rw [handleChildren]
    rcases hmem with rfl | hmem2
    · rw [hnone]
    · rw [handleChildren_eq_none rest d hmem2 hnone]
      cases handleLocationData c <;> rfl

/-- C9: a descriptor without `name` fails the import; a failing descriptor
anywhere in an array fails the whole array (no partial result); a failing
child fails its Area ancestor; a JSON parse failure fails the
whole import. -/
theorem c9_error_propagation :
    (∀ fields, getField fields "name" = none → handleLocationData (.jobj fields) = none) ∧
    (∀ ds d, jmem d ds → handleLocationData d = none → handleChildren ds = none) ∧
    (∀ fields cs c, getField fields "children" = some (.jarr cs) → jmem c cs →
      handleLocationData c = none → handleLocationData (.jobj fields) = none) ∧
    (∀ parse text, parse (preprocess text) = none →
      import_locations_from_file parse text = none) := by
  refine ⟨?_, handleChildren_eq_none, ?_, ?_⟩
  · intro fields hname
    rw [handleLocationData_obj, hname]
    cases getField fields "children" with
    | none => rfl
    | some v => cases v <;> rfl
  · intro fields cs c hch hmem hnone
    rw [handleLocationData_obj, hch]
    simp only [handleChildren_eq_none cs c hmem hnone]
    cases getField fields "name" with
    | none => rfl
    | some v => cases v <;> rfl
  · intro parse text hparse
    rw [import_locations_from_file, hparse]

/-- Witness for C9: a top-level descriptor lacking `name` fails alone and
inside an array, and a failing parse fails the import. -/
theorem c9_witness :
    handleLocationData (.jobj .nil) = none ∧
    handleChildren (.cons (.jobj .nil) .nil) = none ∧
    handleLocationData (.jobj (.cons "children" (.jarr (.cons (.jobj .nil) .nil)) .nil)) =
      none ∧
    import_locations_from_file (fun _ => none) [] = none :=
  ⟨c9_error_propagation.1 .nil rfl,
   c9_error_propagation.2.1 (.cons (.jobj .nil) .nil) (.jobj .nil) (Or.inl rfl)
     (c9_error_propagation.1 .nil rfl),
   c9_error_propagation.2.2.1 (.cons "children" (.jarr (.cons (.jobj .nil) .nil)) .nil)
     (.cons (.jobj .nil) .nil) (.jobj .nil) rfl (Or.inl rfl)
     (c9_error_propagation.1 .nil rfl),
   c9_error_propagation.2.2.2 (fun _ => none) [] rfl⟩

theorem isArea_applyAccessRules (fields : JsonFields) (base : Node) :
    (applyAccessRules fields base).isArea = base.isArea := by
  rw [applyAccessRules]
  by_cases h : jsonTruthy (getD fields "access_rules") = true <;> simp [h] <;>
    cases base <;> rfl

theorem applyAccessRules_congr (f1 f2 : JsonFields) (base : Node)
    (h : getField f1 "access_rules" = getField f2 "access_rules") :
    applyAccessRules f1 base = applyAccessRules f2 base := by
  rw [applyAccessRules, applyAccessRules, getD, getD, h]

/-- C10: the presence of a `children` key decides the node type.  A
descriptor with `children` builds an Area whenever it builds anything;
with an empty `children` array it builds exactly an Area with no
children; `sections` and `map_locations` keys on a children-carrying
descriptor are ignored; a descriptor without `children` builds a
Location whenever it builds anything. -/
theorem c10_children_key_dispatch :
    (∀ fields n, (getField fields "children").isSome = true →
      handleLocationData (.jobj fields) = some n → n.isArea = true) ∧
    (∀ fields nm, getField fields "name" = some (.jstr nm) →
      getField fields "children" = some (.jarr .nil) →
      handleLocationData (.jobj fields) =
        some (applyAccessRules fields (.area (AreaData.ofName nm) .nil))) ∧
    (∀ fields (v w : Json) cs nm, getField fields "name" = some (.jstr nm) →
      getField fields "children" = some (.jarr cs) →
      handleLocationData (.jobj (.cons "sections" v (.cons "map_locations" w fields))) =
        handleLocationData (.jobj fields)) ∧
    (∀ fields n, getField fields "children" = none →
      handleLocationData (.jobj fields) = some n → n.isArea = false) := by
  refine ⟨?_, ?_, ?_, ?_⟩
  · intro fields n hch hn
    rw [handleLocationData_obj] at hn
    split at hn
    · split at hn
      · split at hn
        · cases hn
          rw [isArea_applyAccessRules]
          rfl
        · cases hn
      · cases hn
    · cases hn
    · rename_i heq
      rw [heq] at hch
      cases hch
  · intro fields nm hnm hch
    rw [handleLocationData_obj, hch, hnm]
    simp only [show handleChildren JsonList.nil = some NodeList.nil from by
      rw [handleChildren]]
  · intro fields v w cs nm hnm hch
    have e1 : ∀ k, "sections" ≠ k → "map_locations" ≠ k →
        getField (.cons "sections" v (.cons "map_locations" w fields)) k =
          getField fields k := by
      intro k h1 h2
      rw [getField_cons_ne _ _ _ _ h1, getField_cons_ne _ _ _ _ h2]
    rw [handleLocationData_obj, handleLocationData_obj,
      e1 "children" (by decide) (by decide), hch,
      e1 "name" (by decide) (by decide), hnm]
    cases hc2 : handleChildren cs with
    | none => simp only [hc2]
    | some children =>
      simp only [hc2]
      rw [applyAccessRules_congr _ fields _ (e1 "access_rules" (by decide) (by decide))]
  · intro fields n hch hn
    rw [handleLocationData_obj, hch] at hn
    replace hn : (match getField fields "name" with
      | some (Json.jstr nm) => handleLocBranch fields nm
      | _ => none) = some n := hn
    split at hn
    · rename_i nm hnm
      unfold handleLocBranch at hn
      cases h1 : importSectionsField fields with
      | none =>
        rw [h1] at hn
        cases h2 : importMapLocationsField fields <;> rw [h2] at hn <;> cases hn
      | some secs =>
        rw [h1] at hn
        cases h2 : importMapLocationsField fields with
        | none => rw [h2] at hn; cases hn
        | some mls =>
          rw [h2] at hn
          cases hn
          rw [isArea_applyAccessRules]
          rfl
    · cases hn

/-- Witness for C10: a descriptor with an empty `children` array builds an
Area; one with `sections` alongside `children` imports identically to one
without; a bare named descriptor builds a Location. -/
theorem c10_witness :
    handleLocationData (.jobj (.cons "name" (.jstr "A") (.cons "children" (.jarr .nil) .nil))) =
      some (applyAccessRules (.cons "name" (.jstr "A") (.cons "children" (.jarr .nil) .nil))
        (.area (AreaData.ofName "A") .nil)) ∧
    handleLocationData (.jobj (.cons "sections" (.jarr .nil) (.cons "map_locations" .null
        (.cons "name" (.jstr "A") (.cons "children" (.jarr .nil) .nil))))) =
      handleLocationData (.jobj (.cons "name" (.jstr "A") (.cons "children" (.jarr .nil) .nil))) ∧
    (handleLocationData (.jobj (.cons "name" (.jstr "L") .nil)) =
      some (Node.location (Location.ofName "L")) →
      (Node.location (Location.ofName "L")).isArea = false) :=
  ⟨c10_children_key_dispatch.2.1 _ "A" rfl rfl,
   c10_children_key_dispatch.2.2.1 _ (.jarr .nil) .null .nil "A" rfl rfl,
   fun h => c10_children_key_dispatch.2.2.2 (.cons "name" (.jstr "L") .nil)
     (Node.location (Location.ofName "L")) rfl h⟩

/-- C7: importing a text and importing the same text with its comment
lines already stripped produce identical results (only whole lines whose
stripped form starts with `//` are removed; any line kept by the filter,
including lines with trailing `//` content, survives verbatim). -/
theorem c7_comment_stripping (parse : List Char → Option Json) (text : List Char) :
    import_locations_from_file parse (preprocess text) =
      import_locations_from_file parse text ∧
    (∀ l ∈ readlines text, keepLine l = true → l ∈ (readlines text).filter keepLine) := by
  constructor
  · rw [import_locations_from_file, import_locations_from_file, preprocess_idem]
  · intro l h1 h2
    exact List.mem_filter.mpr ⟨h1, h2⟩

/-- Witness for C7: a file with an interleaved `// this is ignored` line
behaves like the stripped file, and its non-comment lines are kept. -/
theorem c7_witness :
    import_locations_from_file (fun _ => none)
        (preprocess ("[\n// this is ignored\n]".toList)) =
      import_locations_from_file (fun _ => none) ("[\n// this is ignored\n]".toList) ∧
    "[\n".toList ∈ (readlines ("[\n// this is ignored\n]".toList)).filter keepLine :=
  ⟨(c7_comment_stripping (fun _ => none) ("[\n// this is ignored\n]".toList)).1,
   (c7_comment_stripping (fun _ => none) ("[\n// this is ignored\n]".toList)).2
     ("[\n".toList) (by decide) (by decide)⟩

/-- C1, counterexample: the claim requires only that every referenced Map
have scale 1 and offset 0.  The one-Area forest `[Area("A", short_name="S")]`
(no Maps at all) serializes to `[{"name": "S-area", ...}]`-shaped text
carrying `short_name`, but the importer rebuilds the Area from `name` and
`children` alone, so re-serializing drops `short_name` and the texts
differ.  The parse function behaves as `json.loads` does on this input:
it returns the serialized value. -/
theorem c1_counterexample :
    Option.map (fun g => dumps (forestJson g))
        (import_locations_from_file
          (fun _ => some (forestJson (NodeList.cons
            (.area ⟨"A", some "S", .jarr .nil, .null, none, none, none, none, none⟩ .nil)
            .nil)))
          (dumps (forestJson (NodeList.cons
            (.area ⟨"A", some "S", .jarr .nil, .null, none, none, none, none, none⟩ .nil)
            .nil)))) ≠
      some (dumps (forestJson (NodeList.cons
        (.area ⟨"A", some "S", .jarr .nil, .null, none, none, none, none, none⟩ .nil)
        .nil))) := by
  have h1 : import_locations_from_file
      (fun _ => some (forestJson (NodeList.cons
        (.area ⟨"A", some "S", .jarr .nil, .null, none, none, none, none, none⟩ .nil)
        .nil)))
      (dumps (forestJson (NodeList.cons
        (.area ⟨"A", some "S", .jarr .nil, .null, none, none, none, none, none⟩ .nil)
        .nil))) =
      some (NodeList.cons (.area (AreaData.ofName "A") .nil) .nil) := by
    rw [import_locations_from_file]
    show handleChildren (NodeList.jsons (NodeList.cons
      (.area ⟨"A", some "S", .jarr .nil, .null, none, none, none, none, none⟩ .nil)
      .nil)) = _
    simp [handleChildren, handleLocationData, NodeList.jsons, Node.json, areaFieldsAux,
      optStrEntry, truthyEntry, jsonTruthy, JsonFields.append, getField, getD,
      applyAccessRules, AreaData.ofName]
  rw [h1]
  decide

/-- C1, amended: for forests in which every referenced Map has scale 1 and
offset 0 AND every serialized-but-not-imported optional slot is unset
(Areas: `short_name`, `visibility_rules`, chest images,
`overlay_background`, `color`, `parent`; Locations: chest images — these
are dropped on import, see `c1_counterexample`), serializing, importing the
serialized text (with `json.loads` returning the value our renderer
printed), and serializing again is byte-for-byte identical. -/
theorem c1_roundtrip (parse : List Char → Option Json) (f : NodeList)
    (hclean : cleanNodeList f = true)
    (hparse : parse (preprocess (dumps (forestJson f))) = some (forestJson f)) :
    Option.map (fun g => dumps (forestJson g))
        (import_locations_from_file parse (dumps (forestJson f))) =
      some (dumps (forestJson f)) := by
  rw [import_locations_from_file, hparse]
  show Option.map (fun g => dumps (forestJson g)) (handleChildren (NodeList.jsons f)) = _
  rw [(handleChildren_jsons f hclean).1]
  show some (dumps (forestJson (normNodeList f))) = _
  rw [show forestJson (normNodeList f) = forestJson f from by
    rw [forestJson, forestJson, (handleChildren_jsons f hclean).2]]

/-- Witness for C1: a one-Location forest round-trips byte-for-byte. -/
theorem c1_witness :
    Option.map (fun g => dumps (forestJson g))
        (import_locations_from_file
          (fun _ => some (forestJson (NodeList.cons (.location (Location.ofName "A")) .nil)))
          (dumps (forestJson (NodeList.cons (.location (Location.ofName "A")) .nil)))) =
      some (dumps (forestJson (NodeList.cons (.location (Location.ofName "A")) .nil))) :=
  c1_roundtrip _ (NodeList.cons (.location (Location.ofName "A")) .nil) (by decide) rfl

end Pop
